import Mathlib

/-!
Verification of the LangExtract intelligence pipeline
(`scripts/langextract/extract.py` together with `scripts/langextract/schema.py`).

The Python source is shallowly embedded into Lean:

* pydantic models become Lean structures (optional fields become `Option`,
  field defaults become structure-field defaults);
* the conversation assembler, the extraction functions, the Neo4j sync and the
  `main` orchestration become total Lean functions; code that can raise is
  written in `Except`, with the external collaborators (the LangExtract
  extractor, the Gemini completion call, `json.loads` plus pydantic validation
  of the completion payload) supplied as explicit fallible inputs in `LLMEnv`;
* the Neo4j graph is a `GraphState` record; Cypher `MERGE` on a node keyed by a
  property becomes an upsert into an association list, `MERGE` of a
  property-less node or relationship becomes insert-if-absent, `CREATE` becomes
  an append, and `MATCH (s:Session {id: ...})` becomes a membership test on the
  ids of the pre-existing `Session` nodes.  The `updatedAt`/`createdAt`
  timestamps written by `datetime()` are not modelled (no claim concerns them).

String helpers mirror the Python string methods used by the source
(`startswith`, `endswith`, `strip`) on character lists so that they compute by
kernel reduction; for the arguments the source uses they agree with the Python
methods on ASCII data.
-/

/-- Python `s.startswith(pre)`. -/
def pyStartsWith (s pre : String) : Bool :=
  pre.toList.isPrefixOf s.toList

/-- Python `s.endswith(suf)`. -/
def pyEndsWith (s suf : String) : Bool :=
  suf.toList.isSuffixOf s.toList

/-- Python `s.strip()` (whitespace on both ends). -/
def pyStrip (s : String) : String :=
  String.mk (((s.toList.dropWhile Char.isWhitespace).reverse.dropWhile Char.isWhitespace).reverse)

/-- Python `x or d` for an optional string `x`: `None` and `""` are falsy. -/
def pyOr (o : Option String) (d : String) : String :=
  match o with
  | none => d
  | some s => if s = "" then d else s

/-! ## `json.loads` restricted to JSON string literals

`get_ai_conversation_text` only calls `json.loads` on a value that starts and
ends with a double quote, so the only way the parse can succeed is as a JSON
string literal (with optional trailing whitespace).  The decoder below models
exactly that: escape sequences `\" \\ \/ \b \f \n \r \t \uXXXX` including
surrogate pairs, failure on raw control characters and on trailing garbage.
Lone `\uXXXX` surrogates (which CPython's `json` accepts, producing strings
that are not valid Unicode) are not representable in `Char` and are treated as
a decode failure. -/

/-- Value of one hexadecimal digit. -/
def hexDigit (c : Char) : Option Nat :=
  if '0' ≤ c ∧ c ≤ '9' then some (c.toNat - '0'.toNat)
  else if 'a' ≤ c ∧ c ≤ 'f' then some (c.toNat - 'a'.toNat + 10)
  else if 'A' ≤ c ∧ c ≤ 'F' then some (c.toNat - 'A'.toNat + 10)
  else none

/-- Value of a four-hex-digit escape payload. -/
def hex4 (a b c d : Char) : Option Nat := do
  let x ← hexDigit a
  let y ← hexDigit b
  let z ← hexDigit c
  let w ← hexDigit d
  pure (((x * 16 + y) * 16 + z) * 16 + w)

/-- Decode the body of a JSON string literal (everything after the opening
quote).  Returns the decoded characters and the input remaining after the
closing quote. -/
def decodeJsonStringBody : List Char → Option (List Char × List Char)
  | [] => none
  | '"' :: rest => some ([], rest)
  | '\\' :: 'u' :: a :: b :: c :: d :: rest => do
    let n ← hex4 a b c d
    if 0xD800 ≤ n ∧ n ≤ 0xDBFF then
      match rest with
      | '\\' :: 'u' :: e :: f :: g :: h :: rest2 => do
        let m ← hex4 e f g h
        if 0xDC00 ≤ m ∧ m ≤ 0xDFFF then do
          let (tail, rem) ← decodeJsonStringBody rest2
          pure (Char.ofNat (0x10000 + (n - 0xD800) * 0x400 + (m - 0xDC00)) :: tail, rem)
        else none
      | _ => none
    else if 0xDC00 ≤ n ∧ n ≤ 0xDFFF then none
    else do
      let (tail, rem) ← decodeJsonStringBody rest
      pure (Char.ofNat n :: tail, rem)
  | '\\' :: e :: rest => do
    let c ← match e with
      | '"' => some '"'
      | '\\' => some '\\'
      | '/' => some '/'
      | 'b' => some (Char.ofNat 8)
      | 'f' => some (Char.ofNat 12)
      | 'n' => some '\n'
      | 'r' => some '\r'
      | 't' => some '\t'
      | _ => none
    let (tail, rem) ← decodeJsonStringBody rest
    pure (c :: tail, rem)
  | c :: rest =>
    if c.toNat < 0x20 then none
    else do
      let (tail, rem) ← decodeJsonStringBody rest
      pure (c :: tail, rem)

/-- Python `json.loads` on an input whose first character is `"`:
parse a JSON string literal, allow trailing whitespace, fail otherwise. -/
def jsonLoadsString (s : String) : Option String :=
  match s.toList with
  | '"' :: rest =>
    match decodeJsonStringBody rest with
    | some (body, rem) =>
      if rem.all Char.isWhitespace then some (String.mk body) else none
    | none => none
  | _ => none

/-! ## `schema.py`: pydantic models -/

/-- `schema.SentimentType`. -/
inductive SentimentType where
  | positive
  | negative
  | neutral
  | mixed
  deriving DecidableEq

/-- The `.value` string of a `SentimentType` member. -/
def SentimentType.value : SentimentType → String
  | .positive => "positive"
  | .negative => "negative"
  | .neutral => "neutral"
  | .mixed => "mixed"

/-- `schema.ThemeCategory`. -/
inductive ThemeCategory where
  | tool
  | pain_point
  | goal
  | capability
  | process
  | culture
  | strategy
  deriving DecidableEq

/-- The `.value` string of a `ThemeCategory` member. -/
def ThemeCategory.value : ThemeCategory → String
  | .tool => "tool"
  | .pain_point => "pain_point"
  | .goal => "goal"
  | .capability => "capability"
  | .process => "process"
  | .culture => "culture"
  | .strategy => "strategy"

/-- `schema.ExtractedTheme`. -/
structure ExtractedTheme where
  name : String
  category : ThemeCategory
  sentiment : SentimentType
  related_dimensions : List String := []
  evidence : String
  confidence : Float := 0.8

/-- `schema.ExtractedTool`; the optional fields default to `None`. -/
structure ExtractedTool where
  name : String
  usage_frequency : Option String := none
  sophistication : Option String := none
  use_case : Option String := none
  deriving DecidableEq

/-- `schema.ExtractedPainPoint`. -/
structure ExtractedPainPoint where
  description : String
  severity : String
  area : String
  potential_ai_solution : Option String := none
  deriving DecidableEq

/-- `schema.ExtractedGoal`. -/
structure ExtractedGoal where
  description : String
  timeframe : Option String := none
  related_to_ai : Bool := false
  deriving DecidableEq

/-- `schema.ExtractedQuote`. -/
structure ExtractedQuote where
  text : String
  context : String
  sentiment : SentimentType
  usable_as_testimonial : Bool := false
  deriving DecidableEq

/-- `schema.SessionExtraction`. -/
structure SessionExtraction where
  session_id : String
  participant_name : String
  company : String
  themes : List ExtractedTheme := []
  tools : List ExtractedTool := []
  pain_points : List ExtractedPainPoint := []
  goals : List ExtractedGoal := []
  quotes : List ExtractedQuote := []

/-! ## Session rows from Supabase

A `cascade_sessions` row is a dict with `id`, `status`, optionally a nested
`data` dict, and (either at top level or under `data`) `participant` and
`responses`.  Absent dict keys are `Option.none`; `dict.get(k, d)` becomes
`Option.getD`. -/

/-- One follow-up entry of `resp["aiFollowUps"]`. -/
structure FollowUp where
  question : Option String := none
  answer : Option String := none
  deriving DecidableEq

/-- A response's `answer` value: a JSON string, or some other JSON value
carried by its Python string rendering (only ever formatted into text). -/
inductive AnswerVal where
  | str (s : String)
  | other (rendered : String)
  deriving DecidableEq

/-- One entry of the session's `responses` list. -/
structure Response where
  inputType : Option String := none
  questionText : Option String := none
  answer : Option AnswerVal := none
  aiFollowUps : Option (List FollowUp) := none
  deriving DecidableEq

/-- The `participant` dict. -/
structure Participant where
  name : Option String := none
  company : Option String := none
  role : Option String := none
  industry : Option String := none
  deriving DecidableEq

/-- The keys that may live either at the top level of a session row or under
its `data` key. -/
structure SessionData where
  participant : Option Participant := none
  responses : Option (List Response) := none
  deriving DecidableEq

/-- A `cascade_sessions` row. `data = none` covers both an absent and a falsy
(empty) `data` value, the two cases where `session.get("data") or session`
falls back to the row itself. -/
structure SessionRecord where
  id : String
  status : String := ""
  data : Option SessionData := none
  top : SessionData := {}
  deriving DecidableEq

/-- `data = session.get("data") or session`. -/
def sessionData (session : SessionRecord) : SessionData :=
  session.data.getD session.top

/-- The allow-list test `input_type not in ("ai_conversation", "open_text", "voice")`,
stated positively. -/
def inputTypeIncluded (t : String) : Bool :=
  t == "ai_conversation" || t == "open_text" || t == "voice"

/-- The answer-unwrapping step of `get_ai_conversation_text`: a string answer
that starts and ends with a literal double quote is `json.loads`-decoded once,
keeping the raw string if decoding fails; any other value is used verbatim
(via its string rendering in the `f"A: {answer}"` format). -/
def unwrapAnswer (answer : AnswerVal) : String :=
  match answer with
  | .str s =>
    if pyStartsWith s "\"" && pyEndsWith s "\"" then
      match jsonLoadsString s with
      | some decoded => decoded
      | none => s
    else s
  | .other rendered => rendered

/-- `get_ai_conversation_text(session)` from `extract.py`, mirroring the
Python loop: `parts` is accumulated left to right, ineligible responses are
skipped (`continue`), each eligible response appends its `Q:/A:` block and
then one `Follow-up Q:` part and one `Follow-up A:` part per follow-up entry;
finally the parts are joined with a blank line. -/
def get_ai_conversation_text (session : SessionRecord) : String :=
  let data := sessionData session
  let responses := data.responses.getD []
  let parts := responses.foldl (fun parts resp =>
    let input_type := resp.inputType.getD ""
    if !inputTypeIncluded input_type then parts
    else
      let q_text := resp.questionText.getD "Unknown question"
      let answer := unwrapAnswer (resp.answer.getD (AnswerVal.str ""))
      let parts := parts ++ ["Q: " ++ q_text ++ "\nA: " ++ answer]
      (resp.aiFollowUps.getD []).foldl (fun parts followup =>
        (parts ++ ["Follow-up Q: " ++ followup.question.getD ""])
          ++ ["Follow-up A: " ++ followup.answer.getD ""]) parts) []
  String.intercalate "\n\n" parts

/-! A second rendering of the assembler, written compositionally from the
blocks each response contributes; used to compare the loop above against the
specified block structure. -/

/-- The list of blocks one response contributes to the transcript: nothing if
its input type is outside the allow-list, otherwise the primary `Q:/A:` block
followed by two `Follow-up` blocks per follow-up entry. -/
def responseBlocks (resp : Response) : List String :=
  if inputTypeIncluded (resp.inputType.getD "") then
    ("Q: " ++ resp.questionText.getD "Unknown question" ++ "\nA: "
        ++ unwrapAnswer (resp.answer.getD (AnswerVal.str "")))
      :: (resp.aiFollowUps.getD []).flatMap (fun followup =>
        ["Follow-up Q: " ++ followup.question.getD "",
         "Follow-up A: " ++ followup.answer.getD ""])
  else []

/-- Compositional form of the assembler: all responses' blocks, in response
order, joined with a blank line. -/
def assembledTranscript (session : SessionRecord) : String :=
  String.intercalate "\n\n"
    (((sessionData session).responses.getD []).flatMap responseBlocks)

/-! ## The intelligence extractor (`extract_intelligence` and its fallback)

The external collaborators are supplied as explicit inputs: whether the
`langextract` and `google.generativeai` imports succeed, the Gemini API key,
the outcome of the LangExtract structured-extraction call, the outcome of the
direct `generate_content` call, and the outcome of `json.loads` plus the five
pydantic list validations on the cleaned completion text.  `Except.error`
models a raised exception.  Both embedded functions additionally return the
number of LLM calls they performed. -/

/-- The payload recovered from the fallback completion: `json.loads` followed
by validating each list element against its entity schema. -/
structure ParsedPayload where
  themes : List ExtractedTheme := []
  tools : List ExtractedTool := []
  pain_points : List ExtractedPainPoint := []
  goals : List ExtractedGoal := []
  quotes : List ExtractedQuote := []

/-- The fallible environment the two extraction paths run against. -/
structure LLMEnv where
  langextractAvailable : Bool
  genaiAvailable : Bool
  geminiApiKey : String
  primaryResult : Except String (Option SessionExtraction)
  generateResult : Except String String
  parseResult : String → Except String ParsedPayload

/-- The fence-stripping of the fallback path:
`text.strip()`; drop a leading ``` fence line (or just the three backticks if
the text is a single line); drop a trailing ``` fence; drop a leading
`json` language tag. -/
def cleanLLMText (raw : String) : String :=
  let text := pyStrip raw
  let text :=
    if pyStartsWith text "```" then
      if text.toList.contains '\n' then
        String.mk ((text.toList.dropWhile (fun c => c ≠ '\n')).drop 1)
      else String.mk (text.toList.drop 3)
    else text
  let text :=
    if pyEndsWith text "```" then String.mk (text.toList.take (text.toList.length - 3)) else text
  let text := if pyStartsWith text "json" then String.mk (text.toList.drop 4) else text
  text

/-- `extract_with_gemini_direct(session)`: returns `None` when the genai
module is unavailable, when the API key is unset, or when the transcript is blank;
otherwise makes one completion call and catches any exception of the call, of
`json.loads` or of the pydantic validations, turning it into `None`.
The second component counts LLM calls. -/
def extract_with_gemini_direct (env : LLMEnv) (session : SessionRecord) :
    Except String (Option SessionExtraction) × Nat :=
  if !env.genaiAvailable then (Except.ok none, 0)
  else if env.geminiApiKey = "" then (Except.ok none, 0)
  else
    let data := sessionData session
    let participant := data.participant.getD {}
    let conversation_text := get_ai_conversation_text session
    if pyStrip conversation_text = "" then (Except.ok none, 0)
    else
      match env.generateResult with
      | Except.error _ => (Except.ok none, 1)
      | Except.ok raw =>
        let text := cleanLLMText raw
        match env.parseResult (pyStrip text) with
        | Except.error _ => (Except.ok none, 1)
        | Except.ok parsed =>
          (Except.ok (some
            { session_id := session.id
              participant_name := participant.name.getD "Unknown"
              company := participant.company.getD "Unknown"
              themes := parsed.themes
              tools := parsed.tools
              pain_points := parsed.pain_points
              goals := parsed.goals
              quotes := parsed.quotes }), 1)

/-- `extract_intelligence(session)`: falls back to the direct Gemini path when
the `langextract` import fails; returns `None` on a blank transcript before
any LLM call; stamps `session_id`/`participant_name`/`company` onto a
successful primary result; falls back when the primary call raises; returns
`None` when the primary call returns a falsy result. -/
def extract_intelligence (env : LLMEnv) (session : SessionRecord) :
    Except String (Option SessionExtraction) × Nat :=
  if !env.langextractAvailable then extract_with_gemini_direct env session
  else
    let data := sessionData session
    let participant := data.participant.getD {}
    let conversation_text := get_ai_conversation_text session
    if pyStrip conversation_text = "" then (Except.ok none, 0)
    else
      match env.primaryResult with
      | Except.error _ =>
        let fallback := extract_with_gemini_direct env session
        (fallback.1, fallback.2 + 1)
      | Except.ok none => (Except.ok none, 1)
      | Except.ok (some result) =>
        (Except.ok (some
          { result with
            session_id := session.id
            participant_name := participant.name.getD "Unknown"
            company := participant.company.getD "Unknown" }), 1)

/-! ## The Neo4j graph model

Nodes deduplicated by a natural key are association lists from the key to the
node's (non-timestamp) properties; property-less merged nodes and
relationships are plain lists with insert-if-absent; `Quote` nodes and
`QUOTED` relationships are append-only lists. -/

section AssocOps

variable {K : Type} {V : Type} [DecidableEq K]

/-- Does the association list hold an entry with key `k`? -/
def containsKey (k : K) : List (K × V) → Bool
  | [] => false
  | (a, _) :: rest => if a = k then true else containsKey k rest

/-- First value stored under key `k`. -/
def lookupA (k : K) : List (K × V) → Option V
  | [] => none
  | (a, b) :: rest => if a = k then some b else lookupA k rest

/-- Cypher `MERGE` on a node or relationship keyed by `k` followed by `SET` of
its properties: overwrite the entry in place, or append a new entry. -/
def upsert (k : K) (v : V) : List (K × V) → List (K × V)
  | [] => [(k, v)]
  | (a, b) :: rest => if a = k then (k, v) :: rest else (a, b) :: upsert k v rest

/-- Left-to-right sequence of upserts. -/
def applyPairs (ps : List (K × V)) (l : List (K × V)) : List (K × V) :=
  ps.foldl (fun acc p => upsert p.1 p.2 acc) l

/-- Cypher `MERGE` of a property-less node or relationship. -/
def insertIfAbsent (k : K) (l : List K) : List K :=
  if k ∈ l then l else l ++ [k]

/-- Left-to-right sequence of property-less merges. -/
def foldIns (ks : List K) (l : List K) : List K :=
  ks.foldl (fun acc k => insertIfAbsent k acc) l

end AssocOps

/-- Properties on a `SURFACED` relationship. -/
structure SurfacedProps where
  sentiment : String
  confidence : Float
  evidence : String

/-- Properties on a `USES_TOOL` relationship. -/
structure UsesToolProps where
  frequency : String
  sophistication : String
  useCase : String
  deriving DecidableEq

/-- Properties on a `PainPoint` node. -/
structure PainNodeProps where
  severity : String
  area : String
  deriving DecidableEq

/-- Properties on a `Goal` node. -/
structure GoalNodeProps where
  timeframe : String
  relatedToAi : Bool
  deriving DecidableEq

/-- Properties on a `Quote` node (without the `createdAt` timestamp). -/
structure QuoteProps where
  text : String
  context : String
  sentiment : String
  testimonial : Bool
  deriving DecidableEq

/-- The graph database state.  `Theme` nodes carry an optional `category`
(`none` for a node merged bare, before any `SET`); `sessionIds` are the ids of
the `Session` nodes created by the upstream collaborator (never written by
this pipeline); relationship keys pair the session id with the target node's
natural key. -/
structure GraphState where
  sessionIds : List String := []
  themes : List (String × Option String) := []
  surfaced : List ((String × String) × SurfacedProps) := []
  dims : List String := []
  relatesTo : List (String × String) := []
  tools : List String := []
  usesTool : List ((String × String) × UsesToolProps) := []
  painPoints : List (String × PainNodeProps) := []
  hasPainPoint : List ((String × String) × String) := []
  goals : List (String × GoalNodeProps) := []
  hasGoal : List (String × String) := []
  quotes : List QuoteProps := []
  quoted : List (String × QuoteProps) := []

/-- The `USES_TOOL` edge properties built from one tool, with the
`or "unknown"` / `or ""` defaulting of the query parameters. -/
def usesToolParams (tool : ExtractedTool) : UsesToolProps :=
  { frequency := pyOr tool.usage_frequency "unknown"
    sophistication := pyOr tool.sophistication "unknown"
    useCase := pyOr tool.use_case "" }

/-- The `HAS_PAIN_POINT` edge property (`potentialAiSolution`) built from one
pain point, with the `or ""` defaulting of the query parameter. -/
def painSolutionParam (pp : ExtractedPainPoint) : String :=
  pyOr pp.potential_ai_solution ""

/-- The `Goal` node properties built from one goal, with the
`or "unspecified"` defaulting of the `timeframe` parameter. -/
def goalNodeParams (goal : ExtractedGoal) : GoalNodeProps :=
  { timeframe := pyOr goal.timeframe "unspecified"
    relatedToAi := goal.related_to_ai }

/-- The `Quote` node properties built from one quote. -/
def quoteNodeParams (quote : ExtractedQuote) : QuoteProps :=
  { text := quote.text
    context := quote.context
    sentiment := quote.sentiment.value
    testimonial := quote.usable_as_testimonial }

/-- Properties set on the `SURFACED` relationship for one theme. -/
def surfacedParams (theme : ExtractedTheme) : SurfacedProps :=
  { sentiment := theme.sentiment.value
    confidence := theme.confidence
    evidence := theme.evidence }

/-- Properties for the `PainPoint` node of one pain point. -/
def painNodeParams (pp : ExtractedPainPoint) : PainNodeProps :=
  { severity := pp.severity, area := pp.area }

/-- The first Cypher statement of the theme loop: merge the `Theme` node and
set its category, then match the `Session` node and, on a match, merge the
`SURFACED` relationship and set its properties (zero matched rows end the
statement silently). -/
def runThemeQuery (sid : String) (theme : ExtractedTheme) (g : GraphState) : GraphState :=
  let g := { g with themes := upsert theme.name (some theme.category.value) g.themes }
  if sid ∈ g.sessionIds then
    { g with surfaced := upsert (sid, theme.name) (surfacedParams theme) g.surfaced }
  else g

/-- The dimension statement of the theme loop: bare-merge the `Theme` node,
merge the `ScoringDimension` node, merge the property-less `RELATES_TO`
relationship. -/
def runDimQuery (themeName dim : String) (g : GraphState) : GraphState :=
  let g :=
    { g with themes :=
        if containsKey themeName g.themes then g.themes else g.themes ++ [(themeName, none)] }
  let g := { g with dims := insertIfAbsent dim g.dims }
  { g with relatesTo := insertIfAbsent (themeName, dim) g.relatesTo }

/-- One iteration of the theme loop. -/
def syncTheme (sid : String) (theme : ExtractedTheme) (g : GraphState) : GraphState :=
  theme.related_dimensions.foldl (fun g dim => runDimQuery theme.name dim g)
    (runThemeQuery sid theme g)

/-- One iteration of the tool loop: merge the `Tool` node (its only modelled
property is its name), then on a session match merge the `USES_TOOL`
relationship and overwrite its properties. -/
def runToolQuery (sid : String) (tool : ExtractedTool) (g : GraphState) : GraphState :=
  let g := { g with tools := insertIfAbsent tool.name g.tools }
  if sid ∈ g.sessionIds then
    { g with usesTool := upsert (sid, tool.name) (usesToolParams tool) g.usesTool }
  else g

/-- One iteration of the pain-point loop. -/
def runPainQuery (sid : String) (pp : ExtractedPainPoint) (g : GraphState) : GraphState :=
  let g := { g with painPoints := upsert pp.description (painNodeParams pp) g.painPoints }
  if sid ∈ g.sessionIds then
    { g with hasPainPoint := upsert (sid, pp.description) (painSolutionParam pp) g.hasPainPoint }
  else g

/-- One iteration of the goal loop (the `HAS_GOAL` relationship is
property-less). -/
def runGoalQuery (sid : String) (goal : ExtractedGoal) (g : GraphState) : GraphState :=
  let g := { g with goals := upsert goal.description (goalNodeParams goal) g.goals }
  if sid ∈ g.sessionIds then
    { g with hasGoal := insertIfAbsent (sid, goal.description) g.hasGoal }
  else g

/-- One iteration of the quote loop: the `MATCH` precedes the `CREATE`s, so
with no `Session` node nothing is created; otherwise a fresh `Quote` node and
a fresh `QUOTED` relationship are appended unconditionally. -/
def runQuoteQuery (sid : String) (quote : ExtractedQuote) (g : GraphState) : GraphState :=
  if sid ∈ g.sessionIds then
    { g with quotes := g.quotes ++ [quoteNodeParams quote]
             quoted := g.quoted ++ [(sid, quoteNodeParams quote)] }
  else g

/-- `sync_extraction_to_graph(extraction)`: the five entity loops in source
order. -/
def sync_extraction_to_graph (extraction : SessionExtraction) (g : GraphState) : GraphState :=
  let sid := extraction.session_id
  let g := extraction.themes.foldl (fun g theme => syncTheme sid theme g) g
  let g := extraction.tools.foldl (fun g tool => runToolQuery sid tool g) g
  let g := extraction.pain_points.foldl (fun g pp => runPainQuery sid pp g) g
  let g := extraction.goals.foldl (fun g goal => runGoalQuery sid goal g) g
  extraction.quotes.foldl (fun g quote => runQuoteQuery sid quote g) g

/-! ## Pipeline orchestration (`fetch_analyzed_sessions`, `get_processed_session_ids`, `main`) -/

/-- Python truthiness of `args.session` / of the `session_id` parameter: an
absent value and the empty string are both falsy. -/
def pyTruthy (o : Option String) : Bool :=
  match o with
  | none => false
  | some s => s ≠ ""

/-- `fetch_analyzed_sessions(session_id)` over the `cascade_sessions` table:
filter by id when a truthy id is given, otherwise by `status = "analyzed"`. -/
def fetch_analyzed_sessions (table : List SessionRecord) (session_id : Option String) :
    List SessionRecord :=
  if pyTruthy session_id then table.filter (fun s => s.id = session_id.getD "")
  else table.filter (fun s => s.status = "analyzed")

/-- `get_processed_session_ids()`: the distinct ids of `Session` nodes with at
least one outgoing `SURFACED` relationship to a `Theme`. -/
def get_processed_session_ids (g : GraphState) : List String :=
  (g.surfaced.map (fun r => r.1.1)).dedup

/-- The observable outcome of one `main()` run: the exit code, the list of
sessions the processing loop iterates (empty on the early no-op returns), and
the success count. -/
structure MainOutcome where
  exitCode : Nat
  processed : List SessionRecord
  successCount : Nat
  deriving DecidableEq

/-- `main()`: verify connectivity (exit 1 if unreachable), fetch sessions,
return on an empty fetch, filter out already-processed sessions unless
`--reprocess` or a truthy `--session` is given, return if the remainder is
empty, then run the per-session loop (the extractor is the `env`-driven
function above; its per-session outcome is `extractOutcome`) and finish with
exit code 0. -/
def mainRun (connectOk : Bool) (reprocess : Bool) (sessionArg : Option String)
    (table : List SessionRecord) (g : GraphState)
    (extractOutcome : SessionRecord → Option SessionExtraction) : MainOutcome :=
  if !connectOk then { exitCode := 1, processed := [], successCount := 0 }
  else
    let sessions := fetch_analyzed_sessions table sessionArg
    if sessions.isEmpty then { exitCode := 0, processed := [], successCount := 0 }
    else
      let sessions :=
        if !reprocess && !pyTruthy sessionArg then
          let already_processed := get_processed_session_ids g
          sessions.filter (fun s => !(s.id ∈ already_processed))
        else sessions
      if sessions.isEmpty then { exitCode := 0, processed := [], successCount := 0 }
      else
        { exitCode := 0
          processed := sessions
          successCount := (sessions.filterMap extractOutcome).length }

/-! ## The per-extraction key/value lists that one sync run writes -/

/-- `Theme` node upserts of one extraction. -/
def themePairs (e : SessionExtraction) : List (String × Option String) :=
  e.themes.map (fun t => (t.name, some t.category.value))

/-- `SURFACED` relationship upserts of one extraction. -/
def surfacedPairs (e : SessionExtraction) : List ((String × String) × SurfacedProps) :=
  e.themes.map (fun t => ((e.session_id, t.name), surfacedParams t))

/-- `ScoringDimension` merges of one extraction, in processing order. -/
def dimKeys (e : SessionExtraction) : List String :=
  e.themes.flatMap (fun t => t.related_dimensions)

/-- `RELATES_TO` relationship merges of one extraction. -/
def relatesToKeys (e : SessionExtraction) : List (String × String) :=
  e.themes.flatMap (fun t => t.related_dimensions.map (fun d => (t.name, d)))

/-- `Tool` node merges of one extraction. -/
def toolKeys (e : SessionExtraction) : List String :=
  e.tools.map (fun t => t.name)

/-- `USES_TOOL` relationship upserts of one extraction. -/
def usesToolPairs (e : SessionExtraction) : List ((String × String) × UsesToolProps) :=
  e.tools.map (fun t => ((e.session_id, t.name), usesToolParams t))

/-- `PainPoint` node upserts of one extraction. -/
def painPairs (e : SessionExtraction) : List (String × PainNodeProps) :=
  e.pain_points.map (fun p => (p.description, painNodeParams p))

/-- `HAS_PAIN_POINT` relationship upserts of one extraction. -/
def hasPainPairs (e : SessionExtraction) : List ((String × String) × String) :=
  e.pain_points.map (fun p => ((e.session_id, p.description), painSolutionParam p))

/-- `Goal` node upserts of one extraction. -/
def goalPairs (e : SessionExtraction) : List (String × GoalNodeProps) :=
  e.goals.map (fun gl => (gl.description, goalNodeParams gl))

/-- `HAS_GOAL` relationship merges of one extraction. -/
def hasGoalKeys (e : SessionExtraction) : List (String × String) :=
  e.goals.map (fun gl => (e.session_id, gl.description))

/-- `Quote` nodes created by one sync run (when the session node exists). -/
def quoteNodes (e : SessionExtraction) : List QuoteProps :=
  e.quotes.map quoteNodeParams

/-- `QUOTED` relationships created by one sync run (when the session node
exists). -/
def quotedRels (e : SessionExtraction) : List (String × QuoteProps) :=
  e.quotes.map (fun q => (e.session_id, quoteNodeParams q))

/-! ## Assembler lemmas -/

/-- The follow-up loop appends exactly the two `Follow-up` blocks of each
entry, in order. -/
theorem followup_foldl_eq (fs : List FollowUp) (parts : List String) :
    fs.foldl (fun parts followup =>
      (parts ++ ["Follow-up Q: " ++ followup.question.getD ""])
        ++ ["Follow-up A: " ++ followup.answer.getD ""]) parts
    = parts ++ fs.flatMap (fun followup =>
        ["Follow-up Q: " ++ followup.question.getD "",
         "Follow-up A: " ++ followup.answer.getD ""]) := by
  induction fs generalizing parts with
  | nil => simp
  | cons f fs ih =>
    rw [List.foldl_cons, ih]
    simp

/-- The response loop of `get_ai_conversation_text` appends exactly
`responseBlocks` of each response, in order. -/
theorem assembler_foldl_eq (rs : List Response) (parts : List String) :
    rs.foldl (fun parts resp =>
      let input_type := resp.inputType.getD ""
      if !inputTypeIncluded input_type then parts
      else
        let q_text := resp.questionText.getD "Unknown question"
        let answer := unwrapAnswer (resp.answer.getD (AnswerVal.str ""))
        let parts := parts ++ ["Q: " ++ q_text ++ "\nA: " ++ answer]
        (resp.aiFollowUps.getD []).foldl (fun parts followup =>
          (parts ++ ["Follow-up Q: " ++ followup.question.getD ""])
            ++ ["Follow-up A: " ++ followup.answer.getD ""]) parts) parts
    = parts ++ rs.flatMap responseBlocks := by
  induction rs generalizing parts with
  | nil => simp
  | cons r rs ih =>
    rw [List.foldl_cons, ih, List.flatMap_cons]
    by_cases h : inputTypeIncluded (r.inputType.getD "") = true
    · simp only [responseBlocks, h, Bool.not_true, Bool.false_eq_true, if_false]
      rw [followup_foldl_eq]
      simp
    · rw [Bool.not_eq_true] at h
      simp [responseBlocks, h]

/-- The loop-and-append form of the assembler agrees with its compositional
block form. -/
theorem get_ai_conversation_text_eq (session : SessionRecord) :
    get_ai_conversation_text session = assembledTranscript session := by
  unfold get_ai_conversation_text assembledTranscript
  simp only [assembler_foldl_eq, List.nil_append]

/-- A session with no response of an eligible input type contributes no
blocks. -/
theorem flatMap_responseBlocks_eq_nil (rs : List Response)
    (h : rs.all (fun r => !inputTypeIncluded (r.inputType.getD "")) = true) :
    rs.flatMap responseBlocks = [] := by
  induction rs with
  | nil => rfl
  | cons r rs ih =>
    simp only [List.all_cons, Bool.and_eq_true] at h
    have h1 : inputTypeIncluded (r.inputType.getD "") = false := by
      have := h.1
      simp only [Bool.not_eq_true'] at this
      exact this
    rw [List.flatMap_cons, ih h.2, List.append_nil]
    simp [responseBlocks, h1]

/-- A session all of whose responses have ineligible input types yields the
empty transcript. -/
theorem transcript_empty_of_no_eligible (session : SessionRecord)
    (h : ((sessionData session).responses.getD []).all
      (fun r => !inputTypeIncluded (r.inputType.getD "")) = true) :
    get_ai_conversation_text session = "" := by
  rw [get_ai_conversation_text_eq]
  unfold assembledTranscript
  rw [flatMap_responseBlocks_eq_nil _ h]
  rfl

/-- The fallback extractor never raises: every branch returns `Except.ok`. -/
theorem extract_with_gemini_direct_ok (env : LLMEnv) (session : SessionRecord) :
    ∃ r, (extract_with_gemini_direct env session).1 = Except.ok r := by
  unfold extract_with_gemini_direct
  dsimp only
  repeat' split
  all_goals exact ⟨_, rfl⟩

/-- Whenever the fallback extractor produces a result, its `session_id` is the
processed session's id. -/
theorem extract_with_gemini_direct_stamps (env : LLMEnv) (session : SessionRecord) :
    ∀ x, (extract_with_gemini_direct env session).1 = Except.ok (some x) →
      x.session_id = session.id := by
  intro x hx
  unfold extract_with_gemini_direct at hx
  dsimp only at hx
  repeat' split at hx
  all_goals simp only [Except.ok.injEq, Option.some.injEq] at hx
  all_goals first
  | exact Option.noConfusion hx
  | (subst hx; rfl)

/-- C3: for every session record and every behaviour of the external LLM
machinery, `extract_intelligence` returns `Except.ok` of an optional
extraction and never propagates an exception; when the primary mechanism is
unavailable the session is handed to `extract_with_gemini_direct`, likewise
when the primary call raises on a non-blank transcript (parse or validation
failures inside the fallback already yield `Except.ok none` there); and every
extraction produced carries the processed session's id. -/
theorem extract_intelligence_never_raises (env : LLMEnv) (session : SessionRecord) :
    (∃ r, (extract_intelligence env session).1 = Except.ok r)
    ∧ (env.langextractAvailable = false →
        extract_intelligence env session = extract_with_gemini_direct env session)
    ∧ (∀ msg, env.langextractAvailable = true →
        pyStrip (get_ai_conversation_text session) ≠ "" →
        env.primaryResult = Except.error msg →
        (extract_intelligence env session).1 = (extract_with_gemini_direct env session).1)
    ∧ (∀ x, (extract_intelligence env session).1 = Except.ok (some x) →
        x.session_id = session.id) := by
  refine ⟨?_, ?_, ?_, ?_⟩
  · unfold extract_intelligence
    dsimp only
    cases hla : env.langextractAvailable
    · simp only [Bool.not_false, if_true]
      exact extract_with_gemini_direct_ok env session
    · simp only [Bool.not_true, Bool.false_eq_true, if_false]
      split
      · exact ⟨none, rfl⟩
      · split
        · obtain ⟨r, hr⟩ := extract_with_gemini_direct_ok env session
          exact ⟨r, hr⟩
        · exact ⟨none, rfl⟩
        · exact ⟨_, rfl⟩
  · intro h
    unfold extract_intelligence
    simp [h]
  · intro msg hla hs hpr
    unfold extract_intelligence
    simp only [hla, Bool.not_true, Bool.false_eq_true, if_false]
    rw [if_neg hs, hpr]
  · intro x hx
    unfold extract_intelligence at hx
    dsimp only at hx
    cases hla : env.langextractAvailable
    · rw [hla] at hx
      simp only [Bool.not_false, if_true] at hx
      exact extract_with_gemini_direct_stamps env session x hx
    · rw [hla] at hx
      simp only [Bool.not_true, Bool.false_eq_true, if_false] at hx
      split at hx
      · simp at hx
      · split at hx
        · exact extract_with_gemini_direct_stamps env session x hx
        · simp at hx
        · simp only [Except.ok.injEq, Option.some.injEq] at hx
          subst hx
          rfl

/-- C3 witness: a concrete environment whose primary call raises on a
non-blank transcript; the fallback is consulted and the overall call still
returns `Except.ok`. -/
theorem extract_intelligence_never_raises_witness :
    (let env : LLMEnv :=
      { langextractAvailable := true
        genaiAvailable := false
        geminiApiKey := ""
        primaryResult := Except.error "boom"
        generateResult := Except.error "unused"
        parseResult := fun _ => Except.error "unused" }
     let session : SessionRecord :=
      { id := "s1"
        top := { responses := some [{ inputType := some "open_text",
                                      questionText := some "q",
                                      answer := some (AnswerVal.str "a") }] } }
     (∃ r, (extract_intelligence env session).1 = Except.ok r)
     ∧ (extract_intelligence env session).1 = (extract_with_gemini_direct env session).1) := by
  refine ⟨(extract_intelligence_never_raises _ _).1, ?_⟩
  exact (extract_intelligence_never_raises _ _).2.2.1 "boom" rfl (by decide) rfl

/-- C4: a session none of whose responses has an input type in
{ai_conversation, open_text, voice} yields the empty transcript, and both
extraction paths return no result with zero LLM calls, for every behaviour of
the external LLM machinery. -/
theorem empty_transcript_skips_llm (env : LLMEnv) (session : SessionRecord)
    (h : ((sessionData session).responses.getD []).all
      (fun r => !inputTypeIncluded (r.inputType.getD "")) = true) :
    get_ai_conversation_text session = ""
    ∧ extract_intelligence env session = (Except.ok none, 0)
    ∧ extract_with_gemini_direct env session = (Except.ok none, 0) := by
  have ht : get_ai_conversation_text session = "" := transcript_empty_of_no_eligible session h
  have hps : pyStrip "" = "" := rfl
  have hfb : extract_with_gemini_direct env session = (Except.ok none, 0) := by
    unfold extract_with_gemini_direct
    cases hga : env.genaiAvailable
    · rfl
    · simp only [Bool.not_true, Bool.false_eq_true, if_false]
      by_cases hk : env.geminiApiKey = ""
      · simp [hk]
      · simp [hk, ht, hps]
  refine ⟨ht, ?_, hfb⟩
  unfold extract_intelligence
  cases hla : env.langextractAvailable
  · simp only [Bool.not_false, if_true]
    exact hfb
  · simp only [Bool.not_true, Bool.false_eq_true, if_false]
    simp [ht, hps]

/-- C4 witness: a concrete session with one multiple-choice response only; no
LLM call happens and both paths return no result. -/
theorem empty_transcript_skips_llm_witness :
    (let env : LLMEnv :=
      { langextractAvailable := true
        genaiAvailable := true
        geminiApiKey := "key"
        primaryResult := Except.ok (some { session_id := "x", participant_name := "x", company := "x" })
        generateResult := Except.ok "unused"
        parseResult := fun _ => Except.ok {} }
     let session : SessionRecord :=
      { id := "s2"
        top := { responses := some [{ inputType := some "multiple_choice",
                                      questionText := some "q",
                                      answer := some (AnswerVal.str "a") }] } }
     get_ai_conversation_text session = ""
     ∧ extract_intelligence env session = (Except.ok none, 0)
     ∧ extract_with_gemini_direct env session = (Except.ok none, 0)) :=
  empty_transcript_skips_llm _ _ (by decide)

/-- C6 (amended): the assembler emits, per eligible response, one
`Q:/A:` block followed by one `Follow-up Q:` block and one `Follow-up A:`
block per follow-up entry (two blocks per entry, not a combined `Q:/A:`
block), and the transcript is all blocks joined with a blank line in original
response order. -/
theorem assembler_block_structure (session : SessionRecord) :
    get_ai_conversation_text session = assembledTranscript session :=
  get_ai_conversation_text_eq session

/-- C6 counterexample: with one follow-up `{question: "f", answer: "g"}` the
transcript carries two separate `Follow-up` blocks separated by a blank line,
not one additional `Q: f\nA: g` block. -/
theorem followup_blocks_counterexample :
    get_ai_conversation_text
      { id := "c6"
        top := { responses := some [{ inputType := some "open_text"
                                      questionText := some "q"
                                      answer := some (AnswerVal.str "a")
                                      aiFollowUps := some [{ question := some "f"
                                                             answer := some "g" }] }] } }
      = "Q: q\nA: a\n\nFollow-up Q: f\n\nFollow-up A: g"
    ∧ get_ai_conversation_text
      { id := "c6"
        top := { responses := some [{ inputType := some "open_text"
                                      questionText := some "q"
                                      answer := some (AnswerVal.str "a")
                                      aiFollowUps := some [{ question := some "f"
                                                             answer := some "g" }] }] } }
      ≠ "Q: q\nA: a\n\nQ: f\nA: g" := by
  constructor
  · decide
  · decide

/-- C7: a string answer enclosed in literal double quotes is decoded by
`json.loads` exactly once with a failed decode keeping the raw string, and
every string answer not enclosed in double quotes passes through unchanged;
`"\"hello\""` becomes `hello`, a doubly-escaped quote survives one decode, and
the undecodable single quote character is kept raw. -/
theorem answer_unwrap_behavior :
    (∀ s : String, (pyStartsWith s "\"" && pyEndsWith s "\"") = false →
      unwrapAnswer (AnswerVal.str s) = s)
    ∧ (∀ s : String, (pyStartsWith s "\"" && pyEndsWith s "\"") = true →
      unwrapAnswer (AnswerVal.str s) = (jsonLoadsString s).getD s)
    ∧ unwrapAnswer (AnswerVal.str "\"hello\"") = "hello"
    ∧ unwrapAnswer (AnswerVal.str "\"\\\"hello\\\"\"") = "\"hello\""
    ∧ unwrapAnswer (AnswerVal.str "\"") = "\"" := by
  refine ⟨?_, ?_, by decide, by decide, by decide⟩
  · intro s h
    simp [unwrapAnswer, h]
  · intro s h
    simp only [unwrapAnswer, h, if_true]
    cases hj : jsonLoadsString s <;> simp [hj]

/-- C7 witness: the two universal parts applied at concrete answers. -/
theorem answer_unwrap_behavior_witness :
    unwrapAnswer (AnswerVal.str "plain text") = "plain text"
    ∧ unwrapAnswer (AnswerVal.str "\"hi\"") = (jsonLoadsString "\"hi\"").getD "\"hi\"" := by
  constructor
  · exact answer_unwrap_behavior.1 "plain text" (by decide)
  · exact answer_unwrap_behavior.2.1 "\"hi\"" (by decide)

/-- C10: the assembler is total on records with absent fields: an absent
`questionText` renders as the literal `Unknown question`, an absent `answer`
renders as the empty string, and follow-up entries with absent fields
contribute empty strings after their labels. -/
theorem assembler_missing_fields_defaults (t : String) (fs : List FollowUp)
    (h : inputTypeIncluded t = true) :
    get_ai_conversation_text
      { id := "s", top := { responses := some [{ inputType := some t, aiFollowUps := some fs }] } }
      = String.intercalate "\n\n" ("Q: Unknown question\nA: " :: fs.flatMap (fun f =>
          ["Follow-up Q: " ++ f.question.getD "", "Follow-up A: " ++ f.answer.getD ""])) := by
  have hhead : "Q: " ++ "Unknown question" ++ "\nA: " ++ unwrapAnswer (AnswerVal.str "")
      = "Q: Unknown question\nA: " := by decide
  rw [get_ai_conversation_text_eq]
  unfold assembledTranscript sessionData
  dsimp only
  simp only [responseBlocks, h, if_true, Option.getD_none, Option.getD_some, hhead,
    List.flatMap_cons, List.flatMap_nil, List.append_nil]

/-- C10 witness: one voice response with every optional field absent and one
empty follow-up entry. -/
theorem assembler_missing_fields_defaults_witness :
    inputTypeIncluded "voice" = true
    ∧ get_ai_conversation_text
        { id := "s", top := { responses := some [{ inputType := some "voice",
                                                   aiFollowUps := some [{}] }] } }
      = "Q: Unknown question\nA: \n\nFollow-up Q: \n\nFollow-up A: " := by
  refine ⟨by decide, ?_⟩
  rw [assembler_missing_fields_defaults "voice" [{}] (by decide)]
  decide

/-- C5 counterexample: pydantic's schema defaults leave optional fields as
`None` on the entities handed to the synchronizer — a tool validated from a
payload carrying only a name reaches `sync_extraction_to_graph` with
`usage_frequency = None`, not with an explicit placeholder; the placeholder
substitution happens only inside the synchronizer's parameter building. -/
theorem optional_fields_none_counterexample :
    (extract_intelligence
      { langextractAvailable := true
        genaiAvailable := true
        geminiApiKey := "key"
        primaryResult := Except.ok (some
          { session_id := "", participant_name := "", company := ""
            tools := [{ name := "ChatGPT" }] })
        generateResult := Except.error "unused"
        parseResult := fun _ => Except.error "unused" }
      { id := "c5"
        top := { responses := some [{ inputType := some "open_text"
                                      questionText := some "q"
                                      answer := some (AnswerVal.str "a") }] } }).1
      = Except.ok (some
          { session_id := "c5", participant_name := "Unknown", company := "Unknown"
            tools := [{ name := "ChatGPT" }] })
    ∧ ({ name := "ChatGPT" } : ExtractedTool).usage_frequency = none
    ∧ ({ name := "ChatGPT" } : ExtractedTool).usage_frequency ≠ some "unknown"
    ∧ ({ name := "ChatGPT" } : ExtractedTool).use_case ≠ some "" := by
  refine ⟨?_, by decide, by decide, by decide⟩
  unfold extract_intelligence
  dsimp only
  rw [if_neg (by decide)]
  rfl

/-- C5 (amended): entities reach the synchronizer with `None` optionals; it is
the synchronizer's own query-parameter building that substitutes the explicit
placeholders — `unknown` for an absent or empty frequency or sophistication,
the empty string for an absent use case or potential AI solution, and
`unspecified` for an absent timeframe — so the graph queries never receive a
missing value for any of these properties. -/
theorem sync_params_default_optionals (tool : ExtractedTool) (pp : ExtractedPainPoint)
    (goal : ExtractedGoal) :
    (tool.usage_frequency = none → (usesToolParams tool).frequency = "unknown")
    ∧ (tool.usage_frequency = some "" → (usesToolParams tool).frequency = "unknown")
    ∧ (tool.sophistication = none → (usesToolParams tool).sophistication = "unknown")
    ∧ (tool.use_case = none → (usesToolParams tool).useCase = "")
    ∧ (pp.potential_ai_solution = none → painSolutionParam pp = "")
    ∧ (goal.timeframe = none → (goalNodeParams goal).timeframe = "unspecified") := by
  refine ⟨?_, ?_, ?_, ?_, ?_, ?_⟩
  all_goals intro h
  all_goals simp [usesToolParams, painSolutionParam, goalNodeParams, pyOr, h]

/-- C5 witness: the placeholder substitution at a tool, pain point and goal
with absent optionals. -/
theorem sync_params_default_optionals_witness :
    (usesToolParams { name := "ChatGPT" }).frequency = "unknown"
    ∧ (usesToolParams { name := "ChatGPT" }).useCase = ""
    ∧ painSolutionParam { description := "d", severity := "high", area := "sales" } = ""
    ∧ (goalNodeParams { description := "g" }).timeframe = "unspecified" :=
  ⟨(sync_params_default_optionals { name := "ChatGPT" }
      { description := "d", severity := "high", area := "sales" } { description := "g" }).1 rfl,
   (sync_params_default_optionals { name := "ChatGPT" }
      { description := "d", severity := "high", area := "sales" } { description := "g" }).2.2.2.1 rfl,
   (sync_params_default_optionals { name := "ChatGPT" }
      { description := "d", severity := "high", area := "sales" } { description := "g" }).2.2.2.2.1 rfl,
   (sync_params_default_optionals { name := "ChatGPT" }
      { description := "d", severity := "high", area := "sales" } { description := "g" }).2.2.2.2.2 rfl⟩

/-- C9: the run exits with code 1 exactly when the graph store is unreachable
at the startup connectivity check; every reachable run exits 0, including an
empty fetch and the case where the processed-filter removes every session. -/
theorem exit_code_iff_connectivity (connectOk reprocess : Bool) (sessionArg : Option String)
    (table : List SessionRecord) (g : GraphState)
    (extractOutcome : SessionRecord → Option SessionExtraction) :
    (mainRun connectOk reprocess sessionArg table g extractOutcome).exitCode
      = (if connectOk then 0 else 1)
    ∧ ((mainRun connectOk reprocess sessionArg table g extractOutcome).exitCode = 1
        ↔ connectOk = false) := by
  have h : (mainRun connectOk reprocess sessionArg table g extractOutcome).exitCode
      = (if connectOk then 0 else 1) := by
    cases connectOk
    · rfl
    · simp only [if_true]
      unfold mainRun
      simp only [Bool.not_true, Bool.false_eq_true, if_false]
      repeat' split
      all_goals rfl
  refine ⟨h, ?_⟩
  rw [h]
  cases connectOk <;> simp

/-- C8 (amended): a nonempty `--session X` fetches by id alone — no status
filter and no already-processed exclusion — so the processed list is exactly
the table rows with id `X`, whatever their status and whatever `SURFACED`
relationships the graph holds; an empty `--session` string however is falsy in
Python and behaves like an absent flag. -/
theorem session_flag_overrides_filters (x : String) (hx : x ≠ "") (reprocess : Bool)
    (table : List SessionRecord) (g : GraphState)
    (extractOutcome : SessionRecord → Option SessionExtraction) :
    (mainRun true reprocess (some x) table g extractOutcome).processed
      = table.filter (fun s => s.id = x) := by
  have hpt : pyTruthy (some x) = true := by simp [pyTruthy, hx]
  unfold mainRun fetch_analyzed_sessions
  rw [hpt]
  simp only [Option.getD_some, Bool.not_true, Bool.and_false, Bool.false_eq_true, if_false,
    Bool.not_false, if_true]
  split
  · rename_i he
    rw [List.isEmpty_iff] at he
    exact he.symm
  · rfl

/-- C8 witness: a session whose status is not `analyzed` and which already
bears a `SURFACED` relationship is still selected by `--session`. -/
theorem session_flag_overrides_filters_witness :
    ("s9" : String) ≠ ""
    ∧ (mainRun true false (some "s9")
        [{ id := "s9", status := "new" }]
        { sessionIds := ["s9"],
          surfaced := [(("s9", "t"), { sentiment := "positive", confidence := 0.8, evidence := "e" })] }
        (fun _ => none)).processed
      = [{ id := "s9", status := "new" }] := by
  refine ⟨by decide, ?_⟩
  rw [session_flag_overrides_filters "s9" (by decide) false]
  decide

/-- C8 counterexample: `--session ""` is falsy, so the status filter and the
processed-exclusion are applied after all — the row with the empty id is not
processed, against the claim that any `--session X` run fetches by id alone. -/
theorem session_flag_empty_counterexample :
    (mainRun true false (some "") [{ id := "", status := "new" }] {} (fun _ => none)).processed = []
    ∧ [({ id := "", status := "new" } : SessionRecord)].filter (fun s => s.id = "")
      = [{ id := "", status := "new" }]
    ∧ (mainRun true false (some "") [{ id := "", status := "new" }] {} (fun _ => none)).processed
      ≠ [({ id := "", status := "new" } : SessionRecord)].filter (fun s => s.id = "") := by
  refine ⟨by decide, by decide, by decide⟩


/-! ## Association-list lemmas for merge idempotence -/

section AssocLemmas

variable {K : Type} {V : Type} [DecidableEq K]

theorem applyPairs_nil (l : List (K × V)) : applyPairs [] l = l := rfl

theorem applyPairs_cons (p : K × V) (ps : List (K × V)) (l : List (K × V)) :
    applyPairs (p :: ps) l = applyPairs ps (upsert p.1 p.2 l) := rfl

theorem containsKey_upsert_self (k : K) (v : V) (l : List (K × V)) :
    containsKey k (upsert k v l) = true := by
  induction l with
  | nil => simp [upsert, containsKey]
  | cons p rest ih =>
    obtain ⟨a, b⟩ := p
    by_cases hak : a = k
    · simp [upsert, containsKey, hak]
    · simp [upsert, containsKey, hak, ih]

theorem containsKey_upsert_mono (j k : K) (v : V) (l : List (K × V))
    (h : containsKey j l = true) : containsKey j (upsert k v l) = true := by
  induction l with
  | nil => simp [containsKey] at h
  | cons p rest ih =>
    obtain ⟨a, b⟩ := p
    simp only [containsKey] at h
    by_cases hak : a = k
    · by_cases hkj : k = j
      · simp [upsert, containsKey, hak, hkj]
      · have haj : ¬a = j := fun haj => hkj (hak.symm.trans haj)
        rw [if_neg haj] at h
        simp [upsert, containsKey, hak, hkj, h]
    · by_cases haj : a = j
      · by_cases hjk : j = k
        · exact absurd (haj.trans hjk) hak
        · simp [upsert, containsKey, hak, haj, hjk]
      · rw [if_neg haj] at h
        simp [upsert, containsKey, hak, haj, ih h]

theorem lookupA_upsert_self (k : K) (v : V) (l : List (K × V)) :
    lookupA k (upsert k v l) = some v := by
  induction l with
  | nil => simp [upsert, lookupA]
  | cons p rest ih =>
    obtain ⟨a, b⟩ := p
    by_cases hak : a = k
    · simp [upsert, lookupA, hak]
    · simp [upsert, lookupA, hak, ih]

theorem lookupA_upsert_ne (j k : K) (v : V) (l : List (K × V)) (h : ¬j = k) :
    lookupA j (upsert k v l) = lookupA j l := by
  have hkj : ¬k = j := fun hh => h hh.symm
  induction l with
  | nil => simp [upsert, lookupA, hkj]
  | cons p rest ih =>
    obtain ⟨a, b⟩ := p
    by_cases hak : a = k
    · have haj : ¬a = j := fun haj => h (haj.symm.trans hak)
      simp [upsert, lookupA, hak, hkj, haj]
    · simp only [upsert, if_neg hak, lookupA]
      by_cases haj : a = j
      · simp [haj]
      · simp [haj, ih]

theorem upsert_lookup_id (k : K) (v : V) (l : List (K × V))
    (h : lookupA k l = some v) : upsert k v l = l := by
  induction l with
  | nil => simp [lookupA] at h
  | cons p rest ih =>
    obtain ⟨a, b⟩ := p
    by_cases hak : a = k
    · simp only [lookupA, if_pos hak, Option.some.injEq] at h
      simp only [upsert, if_pos hak]
      rw [← hak, h]
    · simp only [lookupA, if_neg hak] at h
      simp only [upsert, if_neg hak]
      rw [ih h]

theorem upsert_absorb (k : K) (v w : V) (l : List (K × V)) :
    upsert k w (upsert k v l) = upsert k w l := by
  induction l with
  | nil => simp [upsert]
  | cons p rest ih =>
    obtain ⟨a, b⟩ := p
    by_cases hak : a = k
    · simp [upsert, hak]
    · simp [upsert, hak, ih]

theorem upsert_comm_of_contains (j k : K) (w v : V) (l : List (K × V))
    (hjk : ¬j = k) (hc : containsKey k l = true) :
    upsert j w (upsert k v l) = upsert k v (upsert j w l) := by
  have hkj : ¬k = j := fun hh => hjk hh.symm
  induction l with
  | nil => simp [containsKey] at hc
  | cons p rest ih =>
    obtain ⟨a, b⟩ := p
    simp only [containsKey] at hc
    by_cases hak : a = k
    · have haj : ¬a = j := fun haj => hjk (haj.symm.trans hak)
      simp [upsert, hak, hkj, haj]
    · rw [if_neg hak] at hc
      by_cases haj : a = j
      · simp [upsert, hak, haj, hjk]
      · simp [upsert, hak, haj, ih hc]

theorem containsKey_applyPairs_mono (j : K) (ps : List (K × V)) :
    ∀ l, containsKey j l = true → containsKey j (applyPairs ps l) = true := by
  induction ps with
  | nil => intro l h; exact h
  | cons p ps ih =>
    intro l h
    rw [applyPairs_cons]
    exact ih _ (containsKey_upsert_mono j p.1 p.2 l h)

theorem containsKey_applyPairs_of_key (j : K) (ps : List (K × V)) :
    ∀ l, j ∈ ps.map Prod.fst → containsKey j (applyPairs ps l) = true := by
  induction ps with
  | nil => intro l h; simp at h
  | cons p ps ih =>
    intro l h
    rw [applyPairs_cons]
    rw [List.map_cons, List.mem_cons] at h
    rcases h with h | h
    · rw [h]
      exact containsKey_applyPairs_mono p.1 ps _ (containsKey_upsert_self p.1 p.2 l)
    · exact ih _ h

theorem lookupA_applyPairs_not_mem (j : K) (ps : List (K × V)) :
    ∀ l, ¬j ∈ ps.map Prod.fst → lookupA j (applyPairs ps l) = lookupA j l := by
  induction ps with
  | nil => intro l _; rfl
  | cons p ps ih =>
    intro l h
    rw [List.map_cons, List.mem_cons, not_or] at h
    rw [applyPairs_cons, ih _ h.2, lookupA_upsert_ne j p.1 p.2 l h.1]

theorem applyPairs_upsert_of_key (k : K) (v : V) (ps : List (K × V)) :
    ∀ l, k ∈ ps.map Prod.fst → containsKey k l = true →
      applyPairs ps (upsert k v l) = applyPairs ps l := by
  induction ps with
  | nil => intro l hk _; simp at hk
  | cons p ps ih =>
    intro l hk hc
    rw [applyPairs_cons, applyPairs_cons]
    by_cases hpk : p.1 = k
    · rw [hpk, upsert_absorb]
    · rw [List.map_cons, List.mem_cons] at hk
      rcases hk with hk | hk
      · exact absurd hk.symm hpk
      · rw [upsert_comm_of_contains p.1 k p.2 v l hpk hc]
        exact ih _ hk (containsKey_upsert_mono k p.1 p.2 l hc)

theorem applyPairs_idem (ps : List (K × V)) : ∀ l,
    applyPairs ps (applyPairs ps l) = applyPairs ps l := by
  induction ps with
  | nil => intro l; rfl
  | cons p ps ih =>
    intro l
    rw [applyPairs_cons, applyPairs_cons]
    by_cases hk : p.1 ∈ ps.map Prod.fst
    · rw [applyPairs_upsert_of_key p.1 p.2 ps _ hk
        (containsKey_applyPairs_mono p.1 ps _ (containsKey_upsert_self p.1 p.2 l))]
      exact ih _
    · have hl : lookupA p.1 (applyPairs ps (upsert p.1 p.2 l)) = some p.2 := by
        rw [lookupA_applyPairs_not_mem p.1 ps _ hk, lookupA_upsert_self]
      rw [upsert_lookup_id p.1 p.2 _ hl]
      exact ih _

end AssocLemmas

section InsertLemmas

variable {K : Type} [DecidableEq K]

theorem foldIns_nil (l : List K) : foldIns [] l = l := rfl

theorem foldIns_cons (k : K) (ks : List K) (l : List K) :
    foldIns (k :: ks) l = foldIns ks (insertIfAbsent k l) := rfl

theorem insertIfAbsent_of_mem (k : K) (l : List K) (h : k ∈ l) :
    insertIfAbsent k l = l := if_pos h

theorem mem_insertIfAbsent_self (k : K) (l : List K) : k ∈ insertIfAbsent k l := by
  unfold insertIfAbsent
  by_cases h : k ∈ l
  · rw [if_pos h]
    exact h
  · simp [h]

theorem mem_insertIfAbsent_mono (j k : K) (l : List K) (h : j ∈ l) :
    j ∈ insertIfAbsent k l := by
  unfold insertIfAbsent
  by_cases hk : k ∈ l
  · rw [if_pos hk]
    exact h
  · simp [hk, h]

theorem mem_foldIns_mono (j : K) (ks : List K) :
    ∀ l, j ∈ l → j ∈ foldIns ks l := by
  induction ks with
  | nil => intro l h; exact h
  | cons k ks ih =>
    intro l h
    rw [foldIns_cons]
    exact ih _ (mem_insertIfAbsent_mono j k l h)

theorem mem_foldIns_of_mem (k : K) (ks : List K) :
    ∀ l, k ∈ ks → k ∈ foldIns ks l := by
  induction ks with
  | nil => intro l h; simp at h
  | cons j ks ih =>
    intro l h
    rw [foldIns_cons]
    rcases List.mem_cons.mp h with h | h
    · exact mem_foldIns_mono k ks _ (h ▸ mem_insertIfAbsent_self j l)
    · exact ih _ h

theorem foldIns_id_of_subset (ks : List K) :
    ∀ l, (∀ k ∈ ks, k ∈ l) → foldIns ks l = l := by
  induction ks with
  | nil => intro l _; rfl
  | cons k ks ih =>
    intro l h
    rw [foldIns_cons, insertIfAbsent_of_mem k l (h k (List.mem_cons_self k ks))]
    exact ih _ (fun j hj => h j (List.mem_cons_of_mem k hj))

theorem foldIns_idem (ks : List K) (l : List K) :
    foldIns ks (foldIns ks l) = foldIns ks l :=
  foldIns_id_of_subset ks _ (fun k hk => mem_foldIns_of_mem k ks l hk)

theorem nodup_insertIfAbsent (k : K) (l : List K) (h : l.Nodup) :
    (insertIfAbsent k l).Nodup := by
  unfold insertIfAbsent
  by_cases hk : k ∈ l
  · simpa [hk]
  · simp [hk, List.nodup_append, h]

theorem nodup_foldIns (ks : List K) :
    ∀ l, l.Nodup → (foldIns ks l).Nodup := by
  induction ks with
  | nil => intro l h; exact h
  | cons k ks ih =>
    intro l h
    rw [foldIns_cons]
    exact ih _ (nodup_insertIfAbsent k l h)

end InsertLemmas

section NodupKeyLemmas

variable {K : Type} {V : Type} [DecidableEq K]

theorem containsKey_iff_mem_keys (k : K) (l : List (K × V)) :
    containsKey k l = true ↔ k ∈ l.map Prod.fst := by
  induction l with
  | nil => simp [containsKey]
  | cons p rest ih =>
    obtain ⟨a, b⟩ := p
    by_cases hak : a = k
    · simp [containsKey, hak]
    · simp only [containsKey, if_neg hak, List.map_cons, List.mem_cons]
      rw [ih]
      constructor
      · exact fun h => Or.inr h
      · rintro (h | h)
        · exact absurd h.symm hak
        · exact h

theorem keys_upsert (k : K) (v : V) (l : List (K × V)) :
    (upsert k v l).map Prod.fst
      = if containsKey k l = true then l.map Prod.fst else l.map Prod.fst ++ [k] := by
  induction l with
  | nil => simp [upsert, containsKey]
  | cons p rest ih =>
    obtain ⟨a, b⟩ := p
    by_cases hak : a = k
    · simp [upsert, containsKey, hak]
    · simp only [upsert, if_neg hak, containsKey, List.map_cons]
      rw [ih]
      by_cases hc : containsKey k rest = true
      · simp [hc, hak]
      · simp [hc, hak]

theorem nodupKeys_upsert (k : K) (v : V) (l : List (K × V))
    (h : (l.map Prod.fst).Nodup) : ((upsert k v l).map Prod.fst).Nodup := by
  rw [keys_upsert]
  by_cases hc : containsKey k l = true
  · rw [if_pos hc]
    exact h
  · rw [if_neg hc]
    rw [containsKey_iff_mem_keys] at hc
    simp [List.nodup_append, h, hc]

theorem nodupKeys_applyPairs (ps : List (K × V)) :
    ∀ l, (l.map Prod.fst).Nodup → ((applyPairs ps l).map Prod.fst).Nodup := by
  induction ps with
  | nil => intro l h; exact h
  | cons p ps ih =>
    intro l h
    rw [applyPairs_cons]
    exact ih _ (nodupKeys_upsert p.1 p.2 l h)

end NodupKeyLemmas

/-! ## Characterizing one sync run, component by component -/

theorem foldIns_append {K : Type} [DecidableEq K] (xs ys : List K) (l : List K) :
    foldIns (xs ++ ys) l = foldIns ys (foldIns xs l) := by
  unfold foldIns
  rw [List.foldl_append]

theorem runThemeQuery_spec_mem (sid : String) (theme : ExtractedTheme) (g : GraphState)
    (h : sid ∈ g.sessionIds) :
    runThemeQuery sid theme g
      = { g with themes := upsert theme.name (some theme.category.value) g.themes,
                 surfaced := upsert (sid, theme.name) (surfacedParams theme) g.surfaced } := by
  unfold runThemeQuery
  dsimp only
  rw [if_pos h]

theorem runThemeQuery_spec_not_mem (sid : String) (theme : ExtractedTheme) (g : GraphState)
    (h : ¬sid ∈ g.sessionIds) :
    runThemeQuery sid theme g
      = { g with themes := upsert theme.name (some theme.category.value) g.themes } := by
  unfold runThemeQuery
  dsimp only
  rw [if_neg h]

theorem runDimQuery_spec (n d : String) (g : GraphState)
    (hc : containsKey n g.themes = true) :
    runDimQuery n d g
      = { g with dims := insertIfAbsent d g.dims,
                 relatesTo := insertIfAbsent (n, d) g.relatesTo } := by
  unfold runDimQuery
  dsimp only
  rw [if_pos hc]

theorem dimsFold_spec (n : String) (ds : List String) :
    ∀ g : GraphState, containsKey n g.themes = true →
      ds.foldl (fun g d => runDimQuery n d g) g
        = { g with dims := foldIns ds g.dims,
                   relatesTo := foldIns (ds.map (fun d => (n, d))) g.relatesTo } := by
  induction ds with
  | nil => intro g _; rfl
  | cons d ds ih =>
    intro g hc
    rw [List.foldl_cons, runDimQuery_spec n d g hc]
    have step := ih { g with dims := insertIfAbsent d g.dims, relatesTo := insertIfAbsent (n, d) g.relatesTo } hc
    rw [step]
    rfl

theorem syncTheme_spec_mem (sid : String) (theme : ExtractedTheme) (g : GraphState)
    (h : sid ∈ g.sessionIds) :
    syncTheme sid theme g
      = { g with themes := upsert theme.name (some theme.category.value) g.themes,
                 surfaced := upsert (sid, theme.name) (surfacedParams theme) g.surfaced,
                 dims := foldIns theme.related_dimensions g.dims,
                 relatesTo := foldIns (theme.related_dimensions.map (fun d => (theme.name, d)))
                   g.relatesTo } := by
  unfold syncTheme
  rw [runThemeQuery_spec_mem sid theme g h]
  rw [dimsFold_spec theme.name theme.related_dimensions _
    (containsKey_upsert_self theme.name (some theme.category.value) g.themes)]

theorem syncTheme_spec_not_mem (sid : String) (theme : ExtractedTheme) (g : GraphState)
    (h : ¬sid ∈ g.sessionIds) :
    syncTheme sid theme g
      = { g with themes := upsert theme.name (some theme.category.value) g.themes,
                 dims := foldIns theme.related_dimensions g.dims,
                 relatesTo := foldIns (theme.related_dimensions.map (fun d => (theme.name, d)))
                   g.relatesTo } := by
  unfold syncTheme
  rw [runThemeQuery_spec_not_mem sid theme g h]
  rw [dimsFold_spec theme.name theme.related_dimensions _
    (containsKey_upsert_self theme.name (some theme.category.value) g.themes)]

theorem themesFold_spec_mem (sid : String) (ts : List ExtractedTheme) :
    ∀ g : GraphState, sid ∈ g.sessionIds →
      ts.foldl (fun g theme => syncTheme sid theme g) g
        = { g with
            themes := applyPairs (ts.map (fun t => (t.name, some t.category.value))) g.themes,
            surfaced := applyPairs (ts.map (fun t => ((sid, t.name), surfacedParams t))) g.surfaced,
            dims := foldIns (ts.flatMap (fun t => t.related_dimensions)) g.dims,
            relatesTo := foldIns (ts.flatMap (fun t => t.related_dimensions.map
              (fun d => (t.name, d)))) g.relatesTo } := by
  induction ts with
  | nil => intro g _; rfl
  | cons t ts ih =>
    intro g h
    rw [List.foldl_cons, syncTheme_spec_mem sid t g h]
    have step := ih { g with themes := upsert t.name (some t.category.value) g.themes, surfaced := upsert (sid, t.name) (surfacedParams t) g.surfaced, dims := foldIns t.related_dimensions g.dims, relatesTo := foldIns (t.related_dimensions.map (fun d => (t.name, d))) g.relatesTo } h
    rw [step]
    simp only [List.map_cons, List.flatMap_cons, applyPairs_cons, foldIns_append]

theorem themesFold_spec_not_mem (sid : String) (ts : List ExtractedTheme) :
    ∀ g : GraphState, ¬sid ∈ g.sessionIds →
      ts.foldl (fun g theme => syncTheme sid theme g) g
        = { g with
            themes := applyPairs (ts.map (fun t => (t.name, some t.category.value))) g.themes,
            dims := foldIns (ts.flatMap (fun t => t.related_dimensions)) g.dims,
            relatesTo := foldIns (ts.flatMap (fun t => t.related_dimensions.map
              (fun d => (t.name, d)))) g.relatesTo } := by
  induction ts with
  | nil => intro g _; rfl
  | cons t ts ih =>
    intro g h
    rw [List.foldl_cons, syncTheme_spec_not_mem sid t g h]
    have step := ih { g with themes := upsert t.name (some t.category.value) g.themes, dims := foldIns t.related_dimensions g.dims, relatesTo := foldIns (t.related_dimensions.map (fun d => (t.name, d))) g.relatesTo } h
    rw [step]
    simp only [List.map_cons, List.flatMap_cons, applyPairs_cons, foldIns_append]

theorem runToolQuery_spec_mem (sid : String) (tool : ExtractedTool) (g : GraphState)
    (h : sid ∈ g.sessionIds) :
    runToolQuery sid tool g
      = { g with tools := insertIfAbsent tool.name g.tools,
                 usesTool := upsert (sid, tool.name) (usesToolParams tool) g.usesTool } := by
  unfold runToolQuery
  dsimp only
  rw [if_pos h]

theorem runToolQuery_spec_not_mem (sid : String) (tool : ExtractedTool) (g : GraphState)
    (h : ¬sid ∈ g.sessionIds) :
    runToolQuery sid tool g = { g with tools := insertIfAbsent tool.name g.tools } := by
  unfold runToolQuery
  dsimp only
  rw [if_neg h]

theorem toolsFold_spec_mem (sid : String) (ts : List ExtractedTool) :
    ∀ g : GraphState, sid ∈ g.sessionIds →
      ts.foldl (fun g tool => runToolQuery sid tool g) g
        = { g with tools := foldIns (ts.map (fun t => t.name)) g.tools,
                   usesTool := applyPairs (ts.map (fun t => ((sid, t.name), usesToolParams t)))
                     g.usesTool } := by
  induction ts with
  | nil => intro g _; rfl
  | cons t ts ih =>
    intro g h
    rw [List.foldl_cons, runToolQuery_spec_mem sid t g h]
    have step := ih { g with tools := insertIfAbsent t.name g.tools, usesTool := upsert (sid, t.name) (usesToolParams t) g.usesTool } h
    rw [step]
    simp only [List.map_cons, applyPairs_cons, foldIns_cons]

theorem toolsFold_spec_not_mem (sid : String) (ts : List ExtractedTool) :
    ∀ g : GraphState, ¬sid ∈ g.sessionIds →
      ts.foldl (fun g tool => runToolQuery sid tool g) g
        = { g with tools := foldIns (ts.map (fun t => t.name)) g.tools } := by
  induction ts with
  | nil => intro g _; rfl
  | cons t ts ih =>
    intro g h
    rw [List.foldl_cons, runToolQuery_spec_not_mem sid t g h]
    have step := ih { g with tools := insertIfAbsent t.name g.tools } h
    rw [step]
    simp only [List.map_cons, foldIns_cons]

theorem runPainQuery_spec_mem (sid : String) (pp : ExtractedPainPoint) (g : GraphState)
    (h : sid ∈ g.sessionIds) :
    runPainQuery sid pp g
      = { g with painPoints := upsert pp.description (painNodeParams pp) g.painPoints,
                 hasPainPoint := upsert (sid, pp.description) (painSolutionParam pp)
                   g.hasPainPoint } := by
  unfold runPainQuery
  dsimp only
  rw [if_pos h]

theorem runPainQuery_spec_not_mem (sid : String) (pp : ExtractedPainPoint) (g : GraphState)
    (h : ¬sid ∈ g.sessionIds) :
    runPainQuery sid pp g
      = { g with painPoints := upsert pp.description (painNodeParams pp) g.painPoints } := by
  unfold runPainQuery
  dsimp only
  rw [if_neg h]

theorem painsFold_spec_mem (sid : String) (ps : List ExtractedPainPoint) :
    ∀ g : GraphState, sid ∈ g.sessionIds →
      ps.foldl (fun g pp => runPainQuery sid pp g) g
        = { g with painPoints := applyPairs (ps.map (fun p => (p.description, painNodeParams p)))
                     g.painPoints,
                   hasPainPoint := applyPairs (ps.map (fun p =>
                     ((sid, p.description), painSolutionParam p))) g.hasPainPoint } := by
  induction ps with
  | nil => intro g _; rfl
  | cons p ps ih =>
    intro g h
    rw [List.foldl_cons, runPainQuery_spec_mem sid p g h]
    have step := ih { g with painPoints := upsert p.description (painNodeParams p) g.painPoints, hasPainPoint := upsert (sid, p.description) (painSolutionParam p) g.hasPainPoint } h
    rw [step]
    simp only [List.map_cons, applyPairs_cons]

theorem painsFold_spec_not_mem (sid : String) (ps : List ExtractedPainPoint) :
    ∀ g : GraphState, ¬sid ∈ g.sessionIds →
      ps.foldl (fun g pp => runPainQuery sid pp g) g
        = { g with painPoints := applyPairs (ps.map (fun p => (p.description, painNodeParams p)))
                     g.painPoints } := by
  induction ps with
  | nil => intro g _; rfl
  | cons p ps ih =>
    intro g h
    rw [List.foldl_cons, runPainQuery_spec_not_mem sid p g h]
    have step := ih { g with painPoints := upsert p.description (painNodeParams p) g.painPoints } h
    rw [step]
    simp only [List.map_cons, applyPairs_cons]

theorem runGoalQuery_spec_mem (sid : String) (goal : ExtractedGoal) (g : GraphState)
    (h : sid ∈ g.sessionIds) :
    runGoalQuery sid goal g
      = { g with goals := upsert goal.description (goalNodeParams goal) g.goals,
                 hasGoal := insertIfAbsent (sid, goal.description) g.hasGoal } := by
  unfold runGoalQuery
  dsimp only
  rw [if_pos h]

theorem runGoalQuery_spec_not_mem (sid : String) (goal : ExtractedGoal) (g : GraphState)
    (h : ¬sid ∈ g.sessionIds) :
    runGoalQuery sid goal g
      = { g with goals := upsert goal.description (goalNodeParams goal) g.goals } := by
  unfold runGoalQuery
  dsimp only
  rw [if_neg h]

theorem goalsFold_spec_mem (sid : String) (gs : List ExtractedGoal) :
    ∀ g : GraphState, sid ∈ g.sessionIds →
      gs.foldl (fun g goal => runGoalQuery sid goal g) g
        = { g with goals := applyPairs (gs.map (fun gl => (gl.description, goalNodeParams gl)))
                     g.goals,
                   hasGoal := foldIns (gs.map (fun gl => (sid, gl.description))) g.hasGoal } := by
  induction gs with
  | nil => intro g _; rfl
  | cons gl gs ih =>
    intro g h
    rw [List.foldl_cons, runGoalQuery_spec_mem sid gl g h]
    have step := ih { g with goals := upsert gl.description (goalNodeParams gl) g.goals, hasGoal := insertIfAbsent (sid, gl.description) g.hasGoal } h
    rw [step]
    simp only [List.map_cons, applyPairs_cons, foldIns_cons]

theorem goalsFold_spec_not_mem (sid : String) (gs : List ExtractedGoal) :
    ∀ g : GraphState, ¬sid ∈ g.sessionIds →
      gs.foldl (fun g goal => runGoalQuery sid goal g) g
        = { g with goals := applyPairs (gs.map (fun gl => (gl.description, goalNodeParams gl)))
                     g.goals } := by
  induction gs with
  | nil => intro g _; rfl
  | cons gl gs ih =>
    intro g h
    rw [List.foldl_cons, runGoalQuery_spec_not_mem sid gl g h]
    have step := ih { g with goals := upsert gl.description (goalNodeParams gl) g.goals } h
    rw [step]
    simp only [List.map_cons, applyPairs_cons]

theorem runQuoteQuery_spec_mem (sid : String) (quote : ExtractedQuote) (g : GraphState)
    (h : sid ∈ g.sessionIds) :
    runQuoteQuery sid quote g
      = { g with quotes := g.quotes ++ [quoteNodeParams quote],
                 quoted := g.quoted ++ [(sid, quoteNodeParams quote)] } := by
  unfold runQuoteQuery
  rw [if_pos h]

theorem runQuoteQuery_spec_not_mem (sid : String) (quote : ExtractedQuote) (g : GraphState)
    (h : ¬sid ∈ g.sessionIds) : runQuoteQuery sid quote g = g := by
  unfold runQuoteQuery
  rw [if_neg h]

theorem quotesFold_spec_mem (sid : String) (qs : List ExtractedQuote) :
    ∀ g : GraphState, sid ∈ g.sessionIds →
      qs.foldl (fun g quote => runQuoteQuery sid quote g) g
        = { g with quotes := g.quotes ++ qs.map quoteNodeParams,
                   quoted := g.quoted ++ qs.map (fun q => (sid, quoteNodeParams q)) } := by
  induction qs with
  | nil => intro g _; simp
  | cons q qs ih =>
    intro g h
    rw [List.foldl_cons, runQuoteQuery_spec_mem sid q g h]
    have step := ih { g with quotes := g.quotes ++ [quoteNodeParams q], quoted := g.quoted ++ [(sid, quoteNodeParams q)] } h
    rw [step]
    simp [List.append_assoc]

theorem quotesFold_spec_not_mem (sid : String) (qs : List ExtractedQuote) :
    ∀ g : GraphState, ¬sid ∈ g.sessionIds →
      qs.foldl (fun g quote => runQuoteQuery sid quote g) g = g := by
  induction qs with
  | nil => intro g _; rfl
  | cons q qs ih =>
    intro g h
    rw [List.foldl_cons, runQuoteQuery_spec_not_mem sid q g h]
    exact ih g h

/-- One sync run against a graph that holds the extraction's `Session` node,
written out component by component. -/
theorem sync_spec_mem (e : SessionExtraction) (g : GraphState)
    (h : e.session_id ∈ g.sessionIds) :
    sync_extraction_to_graph e g
      = { g with
          themes := applyPairs (themePairs e) g.themes,
          surfaced := applyPairs (surfacedPairs e) g.surfaced,
          dims := foldIns (dimKeys e) g.dims,
          relatesTo := foldIns (relatesToKeys e) g.relatesTo,
          tools := foldIns (toolKeys e) g.tools,
          usesTool := applyPairs (usesToolPairs e) g.usesTool,
          painPoints := applyPairs (painPairs e) g.painPoints,
          hasPainPoint := applyPairs (hasPainPairs e) g.hasPainPoint,
          goals := applyPairs (goalPairs e) g.goals,
          hasGoal := foldIns (hasGoalKeys e) g.hasGoal,
          quotes := g.quotes ++ quoteNodes e,
          quoted := g.quoted ++ quotedRels e } := by
  unfold sync_extraction_to_graph
  dsimp only
  rw [themesFold_spec_mem e.session_id e.themes g h]
  rw [toolsFold_spec_mem e.session_id e.tools]
  rw [painsFold_spec_mem e.session_id e.pain_points]
  rw [goalsFold_spec_mem e.session_id e.goals]
  rw [quotesFold_spec_mem e.session_id e.quotes]
  · rfl
  all_goals exact h

/-- One sync run against a graph without the extraction's `Session` node:
every node list is still merged, no relationship to any `Session` is written,
and no `Quote` node is created. -/
theorem sync_spec_not_mem (e : SessionExtraction) (g : GraphState)
    (h : ¬e.session_id ∈ g.sessionIds) :
    sync_extraction_to_graph e g
      = { g with
          themes := applyPairs (themePairs e) g.themes,
          dims := foldIns (dimKeys e) g.dims,
          relatesTo := foldIns (relatesToKeys e) g.relatesTo,
          tools := foldIns (toolKeys e) g.tools,
          painPoints := applyPairs (painPairs e) g.painPoints,
          goals := applyPairs (goalPairs e) g.goals } := by
  unfold sync_extraction_to_graph
  dsimp only
  rw [themesFold_spec_not_mem e.session_id e.themes g h]
  rw [toolsFold_spec_not_mem e.session_id e.tools]
  rw [painsFold_spec_not_mem e.session_id e.pain_points]
  rw [goalsFold_spec_not_mem e.session_id e.goals]
  rw [quotesFold_spec_not_mem e.session_id e.quotes]
  · rfl
  all_goals exact h

/-- C1: re-running the sync with the identical extraction when the `Session`
node exists changes nothing except `Quote` nodes and `QUOTED` relationships,
which are appended again: the second run leaves every deduplicated node list
and every relationship list (with its overwritten properties) exactly as the
first run left it; starting from a graph without quotes the quote and
`QUOTED` counts double; and merging never introduces duplicate keys into the
deduplicated node lists. -/
theorem sync_twice_idempotent_except_quotes (g : GraphState) (e : SessionExtraction)
    (h : e.session_id ∈ g.sessionIds) :
    (sync_extraction_to_graph e (sync_extraction_to_graph e g)
      = { sync_extraction_to_graph e g with
          quotes := (sync_extraction_to_graph e g).quotes ++ quoteNodes e,
          quoted := (sync_extraction_to_graph e g).quoted ++ quotedRels e })
    ∧ (g.quotes = [] →
        (sync_extraction_to_graph e (sync_extraction_to_graph e g)).quotes.length
          = 2 * e.quotes.length)
    ∧ (g.quoted = [] →
        (sync_extraction_to_graph e (sync_extraction_to_graph e g)).quoted.length
          = 2 * e.quotes.length)
    ∧ ((g.themes.map Prod.fst).Nodup →
        ((sync_extraction_to_graph e (sync_extraction_to_graph e g)).themes.map Prod.fst).Nodup)
    ∧ (g.tools.Nodup →
        (sync_extraction_to_graph e (sync_extraction_to_graph e g)).tools.Nodup)
    ∧ ((g.painPoints.map Prod.fst).Nodup →
        ((sync_extraction_to_graph e
          (sync_extraction_to_graph e g)).painPoints.map Prod.fst).Nodup)
    ∧ ((g.goals.map Prod.fst).Nodup →
        ((sync_extraction_to_graph e (sync_extraction_to_graph e g)).goals.map Prod.fst).Nodup) := by
  have h1 : e.session_id ∈ (sync_extraction_to_graph e g).sessionIds := by
    rw [sync_spec_mem e g h]
    exact h
  have hs1 := sync_spec_mem e g h
  have hs2 := sync_spec_mem e (sync_extraction_to_graph e g) h1
  have ht2 : (sync_extraction_to_graph e (sync_extraction_to_graph e g)).themes
      = applyPairs (themePairs e) g.themes := by
    rw [hs2, hs1]
    exact applyPairs_idem (themePairs e) g.themes
  have htool2 : (sync_extraction_to_graph e (sync_extraction_to_graph e g)).tools
      = foldIns (toolKeys e) g.tools := by
    rw [hs2, hs1]
    exact foldIns_idem (toolKeys e) g.tools
  have hpain2 : (sync_extraction_to_graph e (sync_extraction_to_graph e g)).painPoints
      = applyPairs (painPairs e) g.painPoints := by
    rw [hs2, hs1]
    exact applyPairs_idem (painPairs e) g.painPoints
  have hgoal2 : (sync_extraction_to_graph e (sync_extraction_to_graph e g)).goals
      = applyPairs (goalPairs e) g.goals := by
    rw [hs2, hs1]
    exact applyPairs_idem (goalPairs e) g.goals
  refine ⟨?_, ?_, ?_, ?_, ?_, ?_, ?_⟩
  · rw [hs2, hs1]
    simp only [applyPairs_idem, foldIns_idem, List.append_assoc]
  · intro hq
    rw [hs2, hs1]
    simp [hq, quoteNodes, Nat.two_mul]
  · intro hq
    rw [hs2, hs1]
    simp [hq, quotedRels, Nat.two_mul]
  · intro hn
    rw [ht2]
    exact nodupKeys_applyPairs (themePairs e) g.themes hn
  · intro hn
    rw [htool2]
    exact nodup_foldIns (toolKeys e) g.tools hn
  · intro hn
    rw [hpain2]
    exact nodupKeys_applyPairs (painPairs e) g.painPoints hn
  · intro hn
    rw [hgoal2]
    exact nodupKeys_applyPairs (goalPairs e) g.goals hn

/-- C1 witness: a double sync of a one-of-each extraction into a graph holding
only the `Session` node. -/
theorem sync_twice_idempotent_except_quotes_witness :
    (let g : GraphState := { sessionIds := ["s1"] }
     let e : SessionExtraction :=
      { session_id := "s1", participant_name := "P", company := "C"
        themes := [{ name := "ChatGPT adoption", category := ThemeCategory.tool,
                     sentiment := SentimentType.positive,
                     related_dimensions := ["ai_action"], evidence := "ev", confidence := 0.9 }]
        tools := [{ name := "ChatGPT", usage_frequency := some "daily" }]
        pain_points := [{ description := "slow reporting", severity := "high",
                          area := "operations" }]
        goals := [{ description := "automate intake", timeframe := some "near_term",
                    related_to_ai := true }]
        quotes := [{ text := "we love it", context := "q1",
                     sentiment := SentimentType.positive }] }
     sync_extraction_to_graph e (sync_extraction_to_graph e g)
        = { sync_extraction_to_graph e g with
            quotes := (sync_extraction_to_graph e g).quotes ++ quoteNodes e,
            quoted := (sync_extraction_to_graph e g).quoted ++ quotedRels e }
     ∧ (sync_extraction_to_graph e (sync_extraction_to_graph e g)).quotes.length
        = 2 * e.quotes.length
     ∧ ((sync_extraction_to_graph e
          (sync_extraction_to_graph e g)).themes.map Prod.fst).Nodup) := by
  refine ⟨(sync_twice_idempotent_except_quotes _ _ (by decide)).1,
    (sync_twice_idempotent_except_quotes _ _ (by decide)).2.1 rfl,
    (sync_twice_idempotent_except_quotes _ _ (by decide)).2.2.2.1 (by decide)⟩

/-- C2: syncing an extraction whose session id has no `Session` node still
merges every `Theme`/`Tool`/`PainPoint`/`Goal` node (each extracted entity's
key is present afterwards) but forms no session relationship of any kind —
the relationship queries match zero rows silently and the function returns a
well-defined state rather than failing. -/
theorem sync_without_session_node (g : GraphState) (e : SessionExtraction)
    (h : ¬e.session_id ∈ g.sessionIds) :
    (sync_extraction_to_graph e g
      = { g with
          themes := applyPairs (themePairs e) g.themes,
          dims := foldIns (dimKeys e) g.dims,
          relatesTo := foldIns (relatesToKeys e) g.relatesTo,
          tools := foldIns (toolKeys e) g.tools,
          painPoints := applyPairs (painPairs e) g.painPoints,
          goals := applyPairs (goalPairs e) g.goals })
    ∧ (sync_extraction_to_graph e g).surfaced = g.surfaced
    ∧ (sync_extraction_to_graph e g).usesTool = g.usesTool
    ∧ (sync_extraction_to_graph e g).hasPainPoint = g.hasPainPoint
    ∧ (sync_extraction_to_graph e g).hasGoal = g.hasGoal
    ∧ (sync_extraction_to_graph e g).quotes = g.quotes
    ∧ (sync_extraction_to_graph e g).quoted = g.quoted
    ∧ (∀ t ∈ e.themes, containsKey t.name (sync_extraction_to_graph e g).themes = true)
    ∧ (∀ tool ∈ e.tools, tool.name ∈ (sync_extraction_to_graph e g).tools)
    ∧ (∀ pp ∈ e.pain_points,
        containsKey pp.description (sync_extraction_to_graph e g).painPoints = true)
    ∧ (∀ goal ∈ e.goals,
        containsKey goal.description (sync_extraction_to_graph e g).goals = true) := by
  have hs := sync_spec_not_mem e g h
  refine ⟨hs, by rw [hs], by rw [hs], by rw [hs], by rw [hs], by rw [hs], by rw [hs],
    ?_, ?_, ?_, ?_⟩
  · intro t ht
    rw [hs]
    refine containsKey_applyPairs_of_key t.name (themePairs e) g.themes ?_
    unfold themePairs
    rw [List.map_map]
    exact List.mem_map.mpr ⟨t, ht, rfl⟩
  · intro tool htl
    rw [hs]
    refine mem_foldIns_of_mem tool.name (toolKeys e) g.tools ?_
    unfold toolKeys
    exact List.mem_map.mpr ⟨tool, htl, rfl⟩
  · intro pp hpp
    rw [hs]
    refine containsKey_applyPairs_of_key pp.description (painPairs e) g.painPoints ?_
    unfold painPairs
    rw [List.map_map]
    exact List.mem_map.mpr ⟨pp, hpp, rfl⟩
  · intro goal hgl
    rw [hs]
    refine containsKey_applyPairs_of_key goal.description (goalPairs e) g.goals ?_
    unfold goalPairs
    rw [List.map_map]
    exact List.mem_map.mpr ⟨goal, hgl, rfl⟩

/-- C2 witness: syncing into a graph with no `Session` nodes at all leaves
every relationship list empty while the entity nodes appear. -/
theorem sync_without_session_node_witness :
    (let e : SessionExtraction :=
      { session_id := "ghost", participant_name := "P", company := "C"
        themes := [{ name := "T", category := ThemeCategory.culture,
                     sentiment := SentimentType.neutral, evidence := "ev" }]
        tools := [{ name := "Zapier" }] }
     (sync_extraction_to_graph e {}).surfaced = ([] : List ((String × String) × SurfacedProps))
     ∧ (sync_extraction_to_graph e {}).quoted = ([] : List (String × QuoteProps))
     ∧ containsKey "T" (sync_extraction_to_graph e {}).themes = true
     ∧ "Zapier" ∈ (sync_extraction_to_graph e {}).tools) := by
  have H := sync_without_session_node {}
    { session_id := "ghost", participant_name := "P", company := "C"
      themes := [{ name := "T", category := ThemeCategory.culture,
                   sentiment := SentimentType.neutral, evidence := "ev" }]
      tools := [{ name := "Zapier" }] } (by decide)
  exact ⟨H.2.1, H.2.2.2.2.2.2.1,
    H.2.2.2.2.2.2.2.1 _ (List.mem_singleton.mpr rfl),
    H.2.2.2.2.2.2.2.2.1 _ (List.mem_singleton.mpr rfl)⟩
